import Mathlib

/-!
Verification of the tool-server adapters in this repository (an Azure SQL
MCP server and a Slack MCP server) against their natural-language
specification.  The Python sources are shallowly embedded: pure helpers
become Lean functions, the stateful request handlers become explicit
functions of a backend/client value, Python exceptions become Except
errors, and outbound HTTP calls become explicit request descriptions.
Machine integers are modelled as Nat or Int with explicit bounds where the
packing in the source cares about them.
-/

/-! ## JSON values and the result codec (src/mssql_mcp_server/server.py)

Result rows produced by execute_query are dictionaries from column names
to values.  For the codec claims the row values are restricted to the
JSON-native primitives (null, booleans, arbitrary-precision integers,
strings); the fallback for non-native values (json_serial) is modelled
separately below.  Strings are represented as lists of characters, which
matches the sequence-of-code-points view of Python strings. -/

inductive JPrim where
  | jnull : JPrim
  | jbool (b : Bool) : JPrim
  | jint (n : Int) : JPrim
  | jstr (s : List Char) : JPrim
deriving DecidableEq

abbrev JRow := List (List Char × JPrim)

/-- Decimal digit character for a digit value below ten. -/
def digitCh (n : Nat) : Char := Char.ofNat (48 + n)

/-- Lowercase hexadecimal digit character for a value below sixteen. -/
def hexCh (n : Nat) : Char := Char.ofNat (if n < 10 then 48 + n else 87 + n)

/-- Four lowercase hex digits, most significant first, as the Python
backslash-u escapes print a 16-bit value. -/
def hex4 (n : Nat) : List Char :=
  [hexCh (n / 4096 % 16), hexCh (n / 256 % 16), hexCh (n / 16 % 16), hexCh (n % 16)]

/-- Decimal digits of a natural number, most significant first. -/
def natChars (n : Nat) : List Char :=
  if _hlt : n < 10 then [digitCh n]
  else natChars (n / 10) ++ [digitCh (n % 10)]
decreasing_by exact Nat.div_lt_self (by omega) (by omega)

/-- Decimal rendering of a Python int: an optional minus sign and decimal digits. -/
def intChars (n : Int) : List Char :=
  if n < 0 then '-' :: natChars n.natAbs else natChars n.toNat

/-- Escape of one character as json.dumps with ensure_ascii produces it:
backslash and quote get a backslash, the five short control escapes are
used, other printable ASCII is literal, everything else becomes
backslash-u hex (a surrogate pair beyond the basic plane). -/
def escapeChar (c : Char) : List Char :=
  if c = '\\' then ['\\', '\\']
  else if c = '"' then ['\\', '"']
  else if c.toNat = 8 then ['\\', 'b']
  else if c.toNat = 9 then ['\\', 't']
  else if c.toNat = 10 then ['\\', 'n']
  else if c.toNat = 12 then ['\\', 'f']
  else if c.toNat = 13 then ['\\', 'r']
  else if 32 ≤ c.toNat ∧ c.toNat ≤ 126 then [c]
  else if c.toNat < 65536 then '\\' :: 'u' :: hex4 c.toNat
  else ('\\' :: 'u' :: hex4 (55296 + (c.toNat - 65536) / 1024)) ++
       ('\\' :: 'u' :: hex4 (56320 + (c.toNat - 65536) % 1024))

/-- Escape applied across the characters of a string. -/
def escStr : List Char → List Char
  | [] => []
  | c :: rest => escapeChar c ++ escStr rest

/-- A JSON string literal: quote, escaped body, quote. -/
def quoteStr (s : List Char) : List Char := '"' :: (escStr s ++ ['"'])

/-- Serialization of one JSON-native primitive. -/
def dumpPrim : JPrim → List Char
  | .jnull => ['n', 'u', 'l', 'l']
  | .jbool true => ['t', 'r', 'u', 'e']
  | .jbool false => ['f', 'a', 'l', 's', 'e']
  | .jint n => intChars n
  | .jstr s => quoteStr s

/-- Comma-space separated join, the default item separator of json.dumps. -/
def joinComma : List (List Char) → List Char
  | [] => []
  | [x] => x
  | x :: y :: ys => x ++ ',' :: ' ' :: joinComma (y :: ys)

/-- One key/value member of a serialized object, with the default
colon-space separator. -/
def pairStr (kv : List Char × JPrim) : List Char :=
  quoteStr kv.1 ++ ':' :: ' ' :: dumpPrim kv.2

/-- One serialized row object. -/
def dumpRow (r : JRow) : List Char :=
  '{' :: (joinComma (r.map pairStr) ++ ['}'])

/-- Serialized list of rows, as json.dumps renders a list of dicts. -/
def dumps (rows : List JRow) : List Char :=
  '[' :: (joinComma (rows.map dumpRow) ++ [']'])

/-- Embedding of dict_list_to_json restricted to JSON-native row values:
json.dumps of the row list (the default encoder needs no fallback here). -/
def dict_list_to_json (rows : List JRow) : String := ⟨dumps rows⟩

/-! ## Python string helpers used by call_tool -/

/-- Whitespace stripped by the Python method str.strip with no argument
(ASCII portion). -/
def py_isspace (c : Char) : Bool :=
  c = ' ' || c = '\t' || c = '\n' || c = '\r' || c.toNat = 11 || c.toNat = 12

/-- Python str.strip: drop leading and trailing whitespace. -/
def py_strip (s : String) : String :=
  ⟨((s.data.dropWhile py_isspace).reverse.dropWhile py_isspace).reverse⟩

/-- Python str.upper on the ASCII range. -/
def py_upper (s : String) : String := ⟨s.data.map Char.toUpper⟩

/-- Python str.startswith. -/
def py_startswith (s p : String) : Bool := p.data.isPrefixOf s.data

/-! ## The tool dispatcher of the mssql server -/

/-- A text content item of a tool response. -/
structure TextContent where
  type : String
  text : String
deriving DecidableEq

/-- Python exceptions escaping the mssql call_tool handler: ValueError
for caller mistakes, and any exception raised by the database layer. -/
inductive PyErr where
  | valueError (msg : String) : PyErr
  | backendError (msg : String) : PyErr
deriving DecidableEq

/-- The database access object: execute_query returns rows or raises,
execute_insert_instant executes and commits or raises.  Exceptions are
modelled as string-carrying errors. -/
structure Backend where
  execute_query : String → Except String (List JRow)
  execute_insert_instant : String → Except String Unit

/-- Tool-call arguments: a dictionary from argument name to string value. -/
abbrev Args := List (String × String)

/-- Dictionary lookup, as arguments.get(key) returning None when absent. -/
def lookupArg : Args → String → Option String
  | [], _ => none
  | kv :: rest, k => if kv.1 = k then some kv.2 else lookupArg rest k

/-- The fixed metadata query returned by get_all_table_query. -/
def get_all_table_query : String :=
  "\n        SELECT \n            [SchemaName]\n            ,[TableName]\n            ,[SourceSystem]\n            ,[RowCounts]\n        FROM log.EDWAllTablesVw\n        WHERE [SchemaName] = 'EDW'\n    "

/-- The schema-lookup query with the schema and table names interpolated,
as get_table_schema_query builds it. -/
def get_table_schema_query (schema table : String) : String :=
  "\n        SELECT \n            [SchemaName]\n            ,[TableName]\n            ,[ColumnName]\n            ,[ColumnID]\n            ,[DataType]\n            ,[CharacterLength]\n        FROM [Log].[TableColumnVW]\n        WHERE [SchemaName] = '" ++ schema ++ "'\n            AND [TableName] = '" ++ table ++ "'\n    "

namespace Mssql

/-- Embedding of the call_tool handler of the mssql server.  The membership
check and the three tool branches follow the order in the source; ValueError
raises become hard errors, and only the execute_sql body is wrapped in
the try/except that converts database exceptions into in-band text. -/
def call_tool (db : Backend) (name : String) (arguments : Args) :
    Except PyErr (List TextContent) :=
  if ¬ (name = "execute_sql" ∨ name = "get_tables" ∨ name = "get_table_schema") then
    .error (.valueError ("Unknown tool: " ++ name))
  else if name = "get_tables" then
    match db.execute_query get_all_table_query with
    | .ok results => .ok [⟨"text", dict_list_to_json results⟩]
    | .error e => .error (.backendError e)
  else if name = "get_table_schema" then
    match lookupArg arguments "table" with
    | none => .error (.valueError "Table is required")
    | some table =>
      if table = "" then .error (.valueError "Table is required")
      else
        match lookupArg arguments "schema" with
        | none => .error (.valueError "Schema is required")
        | some schema =>
          if schema = "" then .error (.valueError "Schema is required")
          else
            match db.execute_query (get_table_schema_query schema table) with
            | .ok results => .ok [⟨"text", dict_list_to_json results⟩]
            | .error e => .error (.backendError e)
  else
    match lookupArg arguments "query" with
    | none => .error (.valueError "Query is required")
    | some query =>
      if query = "" then .error (.valueError "Query is required")
      else
        if py_startswith (py_upper (py_strip query)) "SELECT" then
          match db.execute_query query with
          | .ok [] => .ok [⟨"text", "No results found"⟩]
          | .ok results => .ok [⟨"text", dict_list_to_json results⟩]
          | .error e => .ok [⟨"text", "Error executing query: " ++ e⟩]
        else
          match db.execute_insert_instant query with
          | .ok _ => .ok [⟨"text", "Query executed successfully"⟩]
          | .error e => .ok [⟨"text", "Error executing query: " ++ e⟩]

end Mssql

/-- A backend on which every database call raises. -/
def dbBoom : Backend :=
  ⟨fun _ => .error "boom", fun _ => .error "boom"⟩

/-- A backend distinguishing the query path from the statement path. -/
def dbProbe : Backend :=
  ⟨fun _ => .error "query-path", fun q => .error ("stmt-path:" ++ q)⟩

/-- A backend that succeeds with no rows on queries and succeeds on
statements. -/
def dbEmpty : Backend :=
  ⟨fun _ => .ok [], fun _ => .ok ()⟩

/-! ## A JSON parser for the codec output

The round-trip claim compares the codec output with what a standard
JSON parser recovers from it.  The parser below is a recursive-descent
reader of the flat structure the codec emits (an array of objects whose
values are primitives), with the usual JSON lexical rules: optional
whitespace around punctuation, quoted strings with backslash escapes
including backslash-u and surrogate pairs, and signed decimal integers.
Note: lone surrogate escapes are rejected here, since Lean characters are
Unicode scalar values; the codec never emits them. -/

def isWsCh (c : Char) : Bool := c = ' ' || c = '\t' || c = '\n' || c = '\r'

/-- Drop leading JSON whitespace. -/
def wsJson : List Char → List Char
  | [] => []
  | c :: rest => if isWsCh c then wsJson rest else c :: rest

def isDigitCh (c : Char) : Bool := 48 ≤ c.toNat && c.toNat ≤ 57

/-- Value of a hexadecimal digit character, either case. -/
def hexVal (c : Char) : Option Nat :=
  if 48 ≤ c.toNat ∧ c.toNat ≤ 57 then some (c.toNat - 48)
  else if 97 ≤ c.toNat ∧ c.toNat ≤ 102 then some (c.toNat - 87)
  else if 65 ≤ c.toNat ∧ c.toNat ≤ 70 then some (c.toNat - 55)
  else none

/-- Read exactly four hex digits. -/
def parseHex4 : List Char → Option (Nat × List Char)
  | a :: b :: c :: d :: rest =>
    match hexVal a, hexVal b, hexVal c, hexVal d with
    | some x, some y, some z, some w => some (x * 4096 + y * 256 + z * 16 + w, rest)
    | _, _, _, _ => none
  | _ => none

/-- The single-character escapes of JSON string literals. -/
def unescSimple (c : Char) : Option Char :=
  if c = '"' then some '"'
  else if c = '\\' then some '\\'
  else if c = '/' then some '/'
  else if c = 'b' then some (Char.ofNat 8)
  else if c = 'f' then some (Char.ofNat 12)
  else if c = 'n' then some (Char.ofNat 10)
  else if c = 'r' then some (Char.ofNat 13)
  else if c = 't' then some (Char.ofNat 9)
  else none

/-- Read a string body up to and including the closing quote, resolving
escapes; fuel bounds the recursion by the input length. -/
def parseStrBody : Nat → List Char → Option (List Char × List Char)
  | _, [] => none
  | 0, _ :: _ => none
  | fuel + 1, c :: rest =>
    if c = '"' then some ([], rest)
    else if c = '\\' then
      match rest with
      | [] => none
      | e :: rest2 =>
        if e = 'u' then
          match parseHex4 rest2 with
          | none => none
          | some (n, rest3) =>
            if 55296 ≤ n ∧ n ≤ 56319 then
              match rest3 with
              | b1 :: b2 :: rest4 =>
                if b1 = '\\' ∧ b2 = 'u' then
                  match parseHex4 rest4 with
                  | some (m, rest5) =>
                    if 56320 ≤ m ∧ m ≤ 57343 then
                      match parseStrBody fuel rest5 with
                      | some (str, r) =>
                        some (Char.ofNat (65536 + (n - 55296) * 1024 + (m - 56320)) :: str, r)
                      | none => none
                    else none
                  | none => none
                else none
              | _ => none
            else if 56320 ≤ n ∧ n ≤ 57343 then none
            else
              match parseStrBody fuel rest3 with
              | some (str, r) => some (Char.ofNat n :: str, r)
              | none => none
        else
          match unescSimple e with
          | some u =>
            match parseStrBody fuel rest2 with
            | some (str, r) => some (u :: str, r)
            | none => none
          | none => none
    else
      match parseStrBody fuel rest with
      | some (str, r) => some (c :: str, r)
      | none => none

/-- Read a complete string body with the input length as fuel, which
always suffices since every step consumes input. -/
def parseStr (s : List Char) : Option (List Char × List Char) :=
  parseStrBody s.length s

/-- Accumulate a run of decimal digits. -/
def parseNatDigits (acc : Nat) : List Char → Nat × List Char
  | [] => (acc, [])
  | c :: rest =>
    if isDigitCh c then parseNatDigits (acc * 10 + (c.toNat - 48)) rest
    else (acc, c :: rest)

/-- Read a JSON integer: optional minus sign then at least one digit. -/
def parseInt : List Char → Option (Int × List Char)
  | [] => none
  | c :: rest =>
    if c = '-' then
      match rest with
      | [] => none
      | d :: _ =>
        if isDigitCh d then
          let p := parseNatDigits 0 rest
          some (-(p.1 : Int), p.2)
        else none
    else if isDigitCh c then
      let p := parseNatDigits 0 (c :: rest)
      some ((p.1 : Int), p.2)
    else none

/-- Read one primitive value: a string, null, a boolean or an integer. -/
def parsePrim (s : List Char) : Option (JPrim × List Char) :=
  match s with
  | [] => none
  | c :: rest =>
    if c = '"' then
      match parseStr rest with
      | some (str, r) => some (.jstr str, r)
      | none => none
    else if c = 'n' then
      match rest with
      | 'u' :: 'l' :: 'l' :: r => some (.jnull, r)
      | _ => none
    else if c = 't' then
      match rest with
      | 'r' :: 'u' :: 'e' :: r => some (.jbool true, r)
      | _ => none
    else if c = 'f' then
      match rest with
      | 'a' :: 'l' :: 's' :: 'e' :: r => some (.jbool false, r)
      | _ => none
    else
      match parseInt (c :: rest) with
      | some (n, r) => some (.jint n, r)
      | none => none

/-- Read one quoted key, a colon, and a primitive value. -/
def parsePair (s : List Char) : Option ((List Char × JPrim) × List Char) :=
  match wsJson s with
  | [] => none
  | c :: rest =>
    if c = '"' then
      match parseStr rest with
      | some (key, r1) =>
        match wsJson r1 with
        | [] => none
        | c2 :: r2 =>
          if c2 = ':' then
            match parsePrim (wsJson r2) with
            | some (v, r3) => some ((key, v), r3)
            | none => none
          else none
      | none => none
    else none

/-- Read the remaining members of an object after its first pair: either
the closing brace, or a comma followed by another pair.  Fuel bounds the
number of members. -/
def parseMembersTail : Nat → List Char → Option (List (List Char × JPrim) × List Char)
  | fuel, s =>
    match wsJson s with
    | [] => none
    | c :: rest =>
      if c = '}' then some ([], rest)
      else if c = ',' then
        match fuel with
        | 0 => none
        | fuel' + 1 =>
          match parsePair rest with
          | some (kv, r1) =>
            match parseMembersTail fuel' r1 with
            | some (kvs, r2) => some (kv :: kvs, r2)
            | none => none
          | none => none
      else none

/-- Read one object: an open brace, then either a closing brace or a first
pair followed by the members tail. -/
def parseObj (fuel : Nat) (s : List Char) : Option (JRow × List Char) :=
  match wsJson s with
  | [] => none
  | c :: rest =>
    if c = '{' then
      match wsJson rest with
      | [] => none
      | c2 :: r2 =>
        if c2 = '}' then some ([], r2)
        else
          match parsePair rest with
          | some (kv, r1) =>
            match parseMembersTail fuel r1 with
            | some (kvs, r2') => some (kv :: kvs, r2')
            | none => none
          | none => none
    else none

/-- Read the remaining elements of the top-level array after its first
object: either the closing bracket, or a comma and another object. -/
def parseRowsTail : Nat → List Char → Option (List JRow × List Char)
  | fuel, s =>
    match wsJson s with
    | [] => none
    | c :: rest =>
      if c = ']' then some ([], rest)
      else if c = ',' then
        match fuel with
        | 0 => none
        | fuel' + 1 =>
          match parseObj fuel' rest with
          | some (row, r1) =>
            match parseRowsTail fuel' r1 with
            | some (rows, r2) => some (row :: rows, r2)
            | none => none
          | none => none
      else none

/-- Read one object with the input length as recursion fuel, which always
suffices since every member consumes input. -/
def parseObjL (s : List Char) : Option (JRow × List Char) :=
  parseObj s.length s

/-- Read the tail of the array with the input length as recursion fuel. -/
def parseRowsTailL (s : List Char) : Option (List JRow × List Char) :=
  parseRowsTail s.length s

/-- Read the top-level array of row objects. -/
def parseTop (s : List Char) : Option (List JRow × List Char) :=
  match wsJson s with
  | [] => none
  | c :: rest =>
    if c = '[' then
      match wsJson rest with
      | [] => none
      | c2 :: r2 =>
        if c2 = ']' then some ([], r2)
        else
          match parseObjL rest with
          | some (row, r1) =>
            match parseRowsTailL r1 with
            | some (rows, r2') => some (row :: rows, r2')
            | none => none
          | none => none
    else none

/-- Parse a complete document: the array with nothing but whitespace
after it, as json.loads accepts. -/
def loads (s : List Char) : Option (List JRow) :=
  match parseTop s with
  | some (rows, rest) => if wsJson rest = [] then some rows else none
  | none => none

/-! ## The json_serial fallback (the default function of dict_list_to_json)

The fallback receives a value the JSON encoder cannot natively serialize.
Its observable inputs are modelled as a record: whether the value has an
isoformat method and what that returns, whether it has a to_eng_string
method (the decimal case, rendered through str), whether it is a bytes
value and what UTF-8 decoding returns (failure propagates), and what
plain str conversion returns (failure caught, yielding null). -/

structure PyObj where
  has_isoformat : Bool
  isoformat : String
  has_to_eng_string : Bool
  is_bytes : Bool
  utf8_decode : Option String
  str_conv : Option String
deriving DecidableEq

/-- Outcome of the fallback: a string to serialize, a JSON null, or an
exception propagating out of the serializer. -/
inductive SerResult where
  | val (s : String) : SerResult
  | null : SerResult
  | raised : SerResult
deriving DecidableEq

/-- Embedding of json_serial: the hasattr checks and the isinstance check
in source order, then the guarded best-effort str conversion. -/
def json_serial (obj : PyObj) : SerResult :=
  if obj.has_isoformat then .val obj.isoformat
  else if obj.has_to_eng_string then
    match obj.str_conv with
    | some s => .val s
    | none => .raised
  else if obj.is_bytes then
    match obj.utf8_decode with
    | some u => .val u
    | none => .raised
  else
    match obj.str_conv with
    | some s => .val s
    | none => .null

/-! ## Access-token packing (MicrosoftAzureSQL.__convert_token)

The token bytes are modelled as natural numbers below 256.  bytes of a
one-element set yields that byte; bytes of the int one yields a single
zero byte; struct.pack of format equals-i packs a 32-bit int in native
byte order, which is little-endian on the platforms this server runs on,
and raises for values outside the int32 range. -/

/-- struct.pack with the equals-i format: four little-endian bytes of a
non-negative int32, or failure when the value does not fit. -/
def pack_eq_i (n : Nat) : Option (List Nat) :=
  if n < 2147483648 then
    some [n % 256, n / 256 % 256, n / 65536 % 256, n / 16777216 % 256]
  else none

/-- Embedding of convert_token: the loop appends each token byte followed
by one zero byte, then the packed length is prepended. -/
def convert_token (tokenb : List Nat) : Option (List Nat) :=
  let exptoken := tokenb.foldl (fun acc i => (acc ++ [i]) ++ [0]) []
  match pack_eq_i exptoken.length with
  | some header => some (header ++ exptoken)
  | none => none

/-- The byte layout the spec prescribes for the token body: each source
byte followed by a zero pad byte. -/
def interleaveZero : List Nat → List Nat
  | [] => []
  | b :: rest => b :: 0 :: interleaveZero rest

/-! ## Configuration loaders (get_db_config and get_server_config)

The environment after the optional .env merge is a partial map from
variable names to strings.  Each loader builds its credentials dictionary
in a fixed order, collects the dictionary keys whose values are missing
or empty, and fails after naming them when any exist. -/

/-- An environment: os.getenv after the optional .env file merge. -/
abbrev Env := String → Option String

/-- Python truthiness test applied to an os.getenv result: None and the
empty string are falsy. -/
def falsyVal : Option String → Bool
  | none => true
  | some s => s = ""

/-- The credentials dictionary keys of the SQL loader paired with the
environment variables they read. -/
def sqlConfigPairs : List (String × String) :=
  [("server", "AZURE_SQL_HOST"),
   ("database", "AZURE_SQL_DATABASE"),
   ("client_id", "AZURE_CLIENT_ID"),
   ("client_secret", "AZURE_CLIENT_SECRET"),
   ("tenant_id", "AZURE_TENANT_ID")]

/-- The credentials dictionary keys of the Slack loader paired with the
environment variables they read. -/
def slackConfigPairs : List (String × String) :=
  [("organization_id", "SLACK_ORGANIZATION_ID"),
   ("client_id", "SLACK_CLIENT_ID"),
   ("client_secret", "SLACK_CLIENT_SECRET")]

/-- Shared shape of both loaders: build the config dictionary, compute
the missing keys, and fail naming exactly those keys when any are
missing.  The error value carries the names the source logs in its
missing-variables message before raising ValueError. -/
def load_config_from (pairs : List (String × String)) (env : Env) :
    Except (List String) (List (String × String)) :=
  let config := pairs.map (fun p => (p.1, env p.2))
  let missing_vars := (config.filter (fun kv => falsyVal kv.2)).map (fun kv => kv.1)
  if missing_vars.isEmpty then
    .ok (config.map (fun kv => (kv.1, kv.2.getD "")))
  else
    .error missing_vars

/-- Embedding of get_db_config. -/
def get_db_config (env : Env) : Except (List String) (List (String × String)) :=
  load_config_from sqlConfigPairs env

/-- Embedding of get_server_config. -/
def get_server_config (env : Env) : Except (List String) (List (String × String)) :=
  load_config_from slackConfigPairs env

/-! ## The Slack client and server (src/slack_mcp_server/server.py)

The SlackClient holds credentials and the optional user token and header
dictionary.  Its methods perform one outbound HTTP call each; the call is
modelled as a request description (method, URL, headers, parameters)
returned to the caller, with request parameter values either strings or
integers.  An exception raised before any call is an error result. -/

inductive SVal where
  | vs (s : String) : SVal
  | vi (n : Int) : SVal
deriving DecidableEq

/-- The header dictionary built from the user token. -/
structure Headers where
  authorization : String
  content_type : String
deriving DecidableEq

inductive HttpMethod where
  | get : HttpMethod
  | post : HttpMethod
deriving DecidableEq

/-- One outbound HTTP call as the client would issue it. -/
structure Request where
  method : HttpMethod
  url : String
  headers : Option Headers
  params : List (String × SVal)
deriving DecidableEq

structure SlackClient where
  client_id : String
  client_secret : String
  team_id : String
  user_token : Option String
  bot_headers : Option Headers

namespace SlackClient

/-- The constructor: no user token and no header dictionary yet. -/
def init (client_id client_secret team_id : String) : SlackClient :=
  ⟨client_id, client_secret, team_id, none, none⟩

/-- set_user_token stores the token and builds the bearer headers. -/
def set_user_token (c : SlackClient) (t : String) : SlackClient :=
  { c with user_token := some t,
           bot_headers := some ⟨"Bearer " ++ t, "application/json"⟩ }

/-- The OAuth2 scopes joined with commas, as get_auth_url builds them. -/
def scopesJoined : String :=
  "channels:read,chat:write,reactions:write,users:read,users:read.email"

/-- get_auth_url needs no authentication and performs no outbound call. -/
def get_auth_url (c : SlackClient) : String :=
  "https://slack.com/oauth/v2/authorize?client_id=" ++ c.client_id ++
  "&scope=" ++ scopesJoined ++ "&user_scope=" ++ scopesJoined ++
  "&redirect_uri=http://localhost:3000/callback"

/-- authenticate_user posts the OAuth2 code exchange; no prior token is
needed and no headers are attached. -/
def authenticate_user (c : SlackClient) (code : String) : Except String Request :=
  .ok ⟨.post, "https://slack.com/api/oauth.v2.access", none,
    [("client_id", .vs c.client_id), ("client_secret", .vs c.client_secret),
     ("code", .vs code), ("redirect_uri", .vs "http://localhost:3000/callback")]⟩

/-- Optional cursor parameter appended when a cursor is given. -/
def cursorParam : Option String → List (String × SVal)
  | some cur => [("cursor", .vs cur)]
  | none => []

/-- get_channels is the only data method that checks authentication
before issuing its call; the limit is capped at 200. -/
def get_channels (c : SlackClient) (limit : Int) (cursor : Option String) :
    Except String Request :=
  if c.bot_headers.isNone then
    .error "Not authenticated. Please authenticate first."
  else
    .ok ⟨.get, "https://slack.com/api/conversations.list", c.bot_headers,
      [("types", .vs "public_channel"), ("exclude_archived", .vs "true"),
       ("limit", .vi (min limit 200)), ("team_id", .vs c.team_id)] ++ cursorParam cursor⟩

/-- post_message issues its call with whatever headers are set, even none. -/
def post_message (c : SlackClient) (channel_id text : String) : Except String Request :=
  .ok ⟨.post, "https://slack.com/api/chat.postMessage", c.bot_headers,
    [("channel", .vs channel_id), ("text", .vs text)]⟩

/-- post_reply likewise performs the call without an authentication check. -/
def post_reply (c : SlackClient) (channel_id thread_ts text : String) :
    Except String Request :=
  .ok ⟨.post, "https://slack.com/api/chat.postMessage", c.bot_headers,
    [("channel", .vs channel_id), ("thread_ts", .vs thread_ts), ("text", .vs text)]⟩

/-- add_reaction likewise performs the call without an authentication check. -/
def add_reaction (c : SlackClient) (channel_id timestamp reaction : String) :
    Except String Request :=
  .ok ⟨.post, "https://slack.com/api/reactions.add", c.bot_headers,
    [("channel", .vs channel_id), ("timestamp", .vs timestamp), ("name", .vs reaction)]⟩

/-- get_channel_history likewise performs the call without a check. -/
def get_channel_history (c : SlackClient) (channel_id : String) (limit : Int) :
    Except String Request :=
  .ok ⟨.get, "https://slack.com/api/conversations.history", c.bot_headers,
    [("channel", .vs channel_id), ("limit", .vi limit)]⟩

/-- get_thread_replies likewise performs the call without a check. -/
def get_thread_replies (c : SlackClient) (channel_id thread_ts : String) :
    Except String Request :=
  .ok ⟨.get, "https://slack.com/api/conversations.replies", c.bot_headers,
    [("channel", .vs channel_id), ("ts", .vs thread_ts)]⟩

/-- get_users performs its call without an authentication check; the
limit is capped at 200. -/
def get_users (c : SlackClient) (limit : Int) (cursor : Option String) :
    Except String Request :=
  .ok ⟨.get, "https://slack.com/api/users.list", c.bot_headers,
    [("limit", .vi (min limit 200)), ("team_id", .vs c.team_id)] ++ cursorParam cursor⟩

/-- get_user_profile performs its call without an authentication check. -/
def get_user_profile (c : SlackClient) (user_id : String) : Except String Request :=
  .ok ⟨.get, "https://slack.com/api/users.profile.get", c.bot_headers,
    [("user", .vs user_id), ("include_labels", .vs "true")]⟩

end SlackClient

/-- Exceptions escaping the Slack call_tool handler, which re-raises
everything it catches: a KeyError from a missing argument, a TypeError
from a non-integer limit, a ValueError for an unknown tool, or an
exception raised inside a client method. -/
inductive SlackErr where
  | keyError (k : String) : SlackErr
  | typeError : SlackErr
  | valueError (msg : String) : SlackErr
  | exn (msg : String) : SlackErr
deriving DecidableEq

/-- What a dispatched Slack tool produces when nothing is raised: either
the auth-url reply built locally, or an outbound request whose response
body would be serialized back to the caller. -/
inductive SlackOutcome where
  | authUrlReply (url : String) : SlackOutcome
  | request (r : Request) : SlackOutcome
deriving DecidableEq

/-- Slack tool arguments: a dictionary from name to string or int value. -/
abbrev SArgs := List (String × SVal)

/-- Dictionary lookup on Slack tool arguments. -/
def lookupS : SArgs → String → Option SVal
  | [], _ => none
  | kv :: rest, k => if kv.1 = k then some kv.2 else lookupS rest k

/-- Subscription arguments access: a missing key raises KeyError. -/
def getItem (args : SArgs) (k : String) : Except SlackErr SVal :=
  match lookupS args k with
  | some v => .ok v
  | none => .error (.keyError k)

/-- Subscription plus the integer use a limit argument gets. -/
def getIntItem (args : SArgs) (k : String) : Except SlackErr Int :=
  match lookupS args k with
  | some (.vi n) => .ok n
  | some (.vs _) => .error .typeError
  | none => .error (.keyError k)

/-- String view of an argument value as it is forwarded to the client. -/
def SVal.asStr : SVal → String
  | .vs s => s
  | .vi n => ⟨intChars n⟩

namespace Slack

/-- Embedding of the call_tool handler of the Slack server.  Arguments are
subscripted in source order before each client call; the surrounding
try/except logs and re-raises, so every exception propagates to the
caller as a hard failure. -/
def call_tool (slack : SlackClient) (name : String) (arguments : SArgs) :
    Except SlackErr SlackOutcome :=
  if name = "get_auth_url" then
    .ok (.authUrlReply slack.get_auth_url)
  else if name = "authenticate" then
    match getItem arguments "code" with
    | .error e => .error e
    | .ok code =>
      match slack.authenticate_user code.asStr with
      | .ok r => .ok (.request r)
      | .error msg => .error (.exn msg)
  else if name = "get_channels" then
    match getIntItem arguments "limit" with
    | .error e => .error e
    | .ok limit =>
      match slack.get_channels limit none with
      | .ok r => .ok (.request r)
      | .error msg => .error (.exn msg)
  else if name = "post_message" then
    match getItem arguments "channel_id" with
    | .error e => .error e
    | .ok channel_id =>
      match getItem arguments "text" with
      | .error e => .error e
      | .ok text =>
        match slack.post_message channel_id.asStr text.asStr with
        | .ok r => .ok (.request r)
        | .error msg => .error (.exn msg)
  else if name = "post_reply" then
    match getItem arguments "channel_id" with
    | .error e => .error e
    | .ok channel_id =>
      match getItem arguments "thread_ts" with
      | .error e => .error e
      | .ok thread_ts =>
        match getItem arguments "text" with
        | .error e => .error e
        | .ok text =>
          match slack.post_reply channel_id.asStr thread_ts.asStr text.asStr with
          | .ok r => .ok (.request r)
          | .error msg => .error (.exn msg)
  else if name = "add_reaction" then
    match getItem arguments "channel_id" with
    | .error e => .error e
    | .ok channel_id =>
      match getItem arguments "timestamp" with
      | .error e => .error e
      | .ok timestamp =>
        match getItem arguments "reaction" with
        | .error e => .error e
        | .ok reaction =>
          match slack.add_reaction channel_id.asStr timestamp.asStr reaction.asStr with
          | .ok r => .ok (.request r)
          | .error msg => .error (.exn msg)
  else if name = "get_channel_history" then
    match getItem arguments "channel_id" with
    | .error e => .error e
    | .ok channel_id =>
      match slack.get_channel_history channel_id.asStr 10 with
      | .ok r => .ok (.request r)
      | .error msg => .error (.exn msg)
  else if name = "get_thread_replies" then
    match getItem arguments "channel_id" with
    | .error e => .error e
    | .ok channel_id =>
      match getItem arguments "thread_ts" with
      | .error e => .error e
      | .ok thread_ts =>
        match slack.get_thread_replies channel_id.asStr thread_ts.asStr with
        | .ok r => .ok (.request r)
        | .error msg => .error (.exn msg)
  else if name = "get_users" then
    match getIntItem arguments "limit" with
    | .error e => .error e
    | .ok limit =>
      match slack.get_users limit none with
      | .ok r => .ok (.request r)
      | .error msg => .error (.exn msg)
  else
    .error (.valueError ("Unknown tool: " ++ name))

end Slack

/-- The required parameters of the mssql server tool descriptors. -/
inductive MssqlRequired : String → String → Prop where
  | execute_sql : MssqlRequired "execute_sql" "query"
  | schema_table : MssqlRequired "get_table_schema" "table"
  | schema_schema : MssqlRequired "get_table_schema" "schema"

/-- The required parameters of the Slack server tool descriptors. -/
inductive SlackRequired : String → String → Prop where
  | auth_code : SlackRequired "authenticate" "code"
  | channels_limit : SlackRequired "get_channels" "limit"
  | message_channel : SlackRequired "post_message" "channel_id"
  | message_text : SlackRequired "post_message" "text"
  | reply_channel : SlackRequired "post_reply" "channel_id"
  | reply_ts : SlackRequired "post_reply" "thread_ts"
  | reply_text : SlackRequired "post_reply" "text"
  | reaction_channel : SlackRequired "add_reaction" "channel_id"
  | reaction_ts : SlackRequired "add_reaction" "timestamp"
  | reaction_name : SlackRequired "add_reaction" "reaction"
  | history_channel : SlackRequired "get_channel_history" "channel_id"
  | replies_channel : SlackRequired "get_thread_replies" "channel_id"
  | replies_ts : SlackRequired "get_thread_replies" "thread_ts"
  | users_limit : SlackRequired "get_users" "limit"

/-- A freshly constructed, unauthenticated Slack client. -/
def freshSlack : SlackClient := SlackClient.init "cid" "secret" "T0"

/-- Decidable equality for Except results over decidable components. -/
instance instDecEqExcept [DecidableEq ε] [DecidableEq α] : DecidableEq (Except ε α) :=
  fun x y =>
    match x, y with
    | .ok a, .ok b => if h : a = b then .isTrue (by rw [h]) else .isFalse (by simp [h])
    | .error a, .error b => if h : a = b then .isTrue (by rw [h]) else .isFalse (by simp [h])
    | .ok _, .error _ => .isFalse (by simp)
    | .error _, .ok _ => .isFalse (by simp)

/-- Whether a character list does not begin with a decimal digit, so a
greedy digit scan stops exactly at it. -/
def headNotDigit : List Char → Bool
  | [] => true
  | c :: _ => !isDigitCh c

/-- Fuel weight of a row list: enough steps for every row and member. -/
def weightRows : List JRow → Nat
  | [] => 0
  | r :: rest => r.length + 1 + weightRows rest

/-- The comma-space-prefixed continuation of a joined list, used to
restate joinComma one element at a time. -/
def tailJoin : List (List Char) → List Char
  | [] => []
  | x :: xs => ',' :: ' ' :: x ++ tailJoin xs

/-! ## Theorems -/

theorem foldl_pad_zero (l acc : List Nat) :
    l.foldl (fun a i => (a ++ [i]) ++ [0]) acc = acc ++ interleaveZero l := by
  induction l generalizing acc with
  | nil => simp [interleaveZero]
  | cons b rest ih =>
    rw [List.foldl_cons, ih]
    simp [interleaveZero]

theorem interleaveZero_length (l : List Nat) :
    (interleaveZero l).length = 2 * l.length := by
  induction l with
  | nil => simp [interleaveZero]
  | cons b rest ih => simp [interleaveZero, ih]; omega

/-- C2: for every access-token byte sequence, the packed ODBC connection
attribute is the little-endian (native on the supported platforms) int32
encoding of twice the token byte length, followed by each token byte
and a zero pad byte in order. -/
theorem c2_convert_token_layout (tokenb : List Nat)
    (hfit : 2 * tokenb.length < 2147483648) :
    ∃ header, pack_eq_i (2 * tokenb.length) = some header ∧
      convert_token tokenb = some (header ++ interleaveZero tokenb) := by
  refine ⟨[(2 * tokenb.length) % 256, 2 * tokenb.length / 256 % 256,
           2 * tokenb.length / 65536 % 256, 2 * tokenb.length / 16777216 % 256], ?_, ?_⟩
  · simp [pack_eq_i, hfit]
  · simp only [convert_token, foldl_pad_zero, List.nil_append, interleaveZero_length]
    simp [pack_eq_i, hfit]

/-- C2 witness: the token bytes 0x41 0x42 pack to int32(4) little-endian
followed by 41 00 42 00. -/
theorem c2_convert_token_layout_witness :
    2 * ([65, 66] : List Nat).length < 2147483648 ∧
      convert_token [65, 66] = some [4, 0, 0, 0, 65, 0, 66, 0] := by
  refine ⟨by norm_num, ?_⟩
  obtain ⟨header, h1, h2⟩ := c2_convert_token_layout [65, 66] (by norm_num)
  have hh : header = [4, 0, 0, 0] := by
    have : pack_eq_i (2 * ([65, 66] : List Nat).length) = some [4, 0, 0, 0] := by decide
    rw [this] at h1
    exact (Option.some.injEq _ _).mp h1.symm
  rw [h2, hh]
  decide

theorem config_filter_map (pairs : List (String × String)) (env : Env) :
    ((pairs.map (fun p => (p.1, env p.2))).filter (fun kv => falsyVal kv.2)).map
        (fun kv => kv.1) =
      (pairs.filter (fun p => falsyVal (env p.2))).map (fun p => p.1) := by
  induction pairs with
  | nil => simp
  | cons p rest ih =>
    by_cases h : falsyVal (env p.2) = true
    · simp [List.filter_cons, h, ih]
    · simp only [Bool.not_eq_true] at h
      simp [List.filter_cons, h, ih]

theorem load_config_from_error (pairs : List (String × String)) (env : Env)
    (h : ∃ p ∈ pairs, falsyVal (env p.2) = true) :
    load_config_from pairs env =
      .error ((pairs.filter (fun p => falsyVal (env p.2))).map (fun p => p.1)) := by
  obtain ⟨p, hp, hfal⟩ := h
  have hmem : p ∈ pairs.filter (fun p => falsyVal (env p.2)) :=
    List.mem_filter.mpr ⟨hp, hfal⟩
  have hne : (pairs.filter (fun p => falsyVal (env p.2))).map (fun p => p.1) ≠ [] := by
    intro hcon
    rw [List.map_eq_nil_iff] at hcon
    rw [hcon] at hmem
    exact List.not_mem_nil p hmem
  simp only [load_config_from]
  rw [config_filter_map]
  simp [List.isEmpty_iff, hne]

theorem load_config_from_ok (pairs : List (String × String)) (env : Env)
    (cfg : List (String × String)) (h : load_config_from pairs env = .ok cfg) :
    cfg = pairs.map (fun p => (p.1, (env p.2).getD "")) ∧
      ∀ p ∈ pairs, falsyVal (env p.2) = false := by
  simp only [load_config_from] at h
  rw [config_filter_map] at h
  by_cases hemp :
      ((pairs.filter (fun p => falsyVal (env p.2))).map (fun p => p.1)).isEmpty = true
  · rw [if_pos hemp] at h
    have hcfg : List.map (fun kv => (kv.1, kv.2.getD ""))
        (List.map (fun p => (p.1, env p.2)) pairs) = cfg := by
      injection h
    constructor
    · rw [← hcfg]
      simp [List.map_map]
    · intro p hp
      rw [List.isEmpty_iff, List.map_eq_nil_iff, List.filter_eq_nil_iff] at hemp
      have := hemp p hp
      simpa using this
  · rw [if_neg hemp] at h
    exact absurd h (by simp)

/-- C3: for every environment in which one or more required configuration
variables resolve to no value (None or empty), each config loader fails
naming exactly the credentials keys whose variables are missing, and a
successful load always carries a real value for every required key --
never a partial or defaulted mapping.  The named keys are the credentials
dictionary keys, each paired one-to-one with its environment variable in
sqlConfigPairs and slackConfigPairs. -/
theorem c3_config_missing_keys (env : Env) :
    ((∃ p ∈ sqlConfigPairs, falsyVal (env p.2) = true) →
      get_db_config env =
        .error ((sqlConfigPairs.filter (fun p => falsyVal (env p.2))).map (fun p => p.1))) ∧
    (∀ cfg, get_db_config env = .ok cfg →
      cfg = sqlConfigPairs.map (fun p => (p.1, (env p.2).getD "")) ∧
        ∀ p ∈ sqlConfigPairs, falsyVal (env p.2) = false) ∧
    ((∃ p ∈ slackConfigPairs, falsyVal (env p.2) = true) →
      get_server_config env =
        .error ((slackConfigPairs.filter (fun p => falsyVal (env p.2))).map (fun p => p.1))) ∧
    (∀ cfg, get_server_config env = .ok cfg →
      cfg = slackConfigPairs.map (fun p => (p.1, (env p.2).getD "")) ∧
        ∀ p ∈ slackConfigPairs, falsyVal (env p.2) = false) := by
  refine ⟨fun h => load_config_from_error _ env h,
          fun cfg h => load_config_from_ok _ env cfg h,
          fun h => load_config_from_error _ env h,
          fun cfg h => load_config_from_ok _ env cfg h⟩

/-- C3 witness: in the empty environment both loaders fail naming all
required keys, and in a fully populated environment the SQL loader
returns the full credentials mapping. -/
theorem c3_config_missing_keys_witness :
    get_db_config (fun _ => none) =
      .error ["server", "database", "client_id", "client_secret", "tenant_id"] ∧
    get_server_config (fun _ => none) =
      .error ["organization_id", "client_id", "client_secret"] := by
  constructor
  · have h := (c3_config_missing_keys (fun _ => none)).1
      ⟨("server", "AZURE_SQL_HOST"), by decide, rfl⟩
    rw [h]
    rfl
  · have h := (c3_config_missing_keys (fun _ => none)).2.2.1
      ⟨("organization_id", "SLACK_ORGANIZATION_ID"), by decide, rfl⟩
    rw [h]
    rfl

/-- C6: the json_serial fallback applies its rules in the fixed priority
order: timestamp-like values always render as their isoformat string
(regardless of whether plain str conversion would work, so rule one never
falls through to generic stringification), then decimal-like values
render through str with a failure propagating, then bytes decode as
UTF-8 with a failure propagating, and only values matching none of these
get the guarded best-effort str conversion with null on failure. -/
theorem c6_json_serial_priority (obj : PyObj) :
    (obj.has_isoformat = true → json_serial obj = .val obj.isoformat) ∧
    (obj.has_isoformat = false → obj.has_to_eng_string = true →
      json_serial obj = match obj.str_conv with
        | some s => .val s
        | none => .raised) ∧
    (obj.has_isoformat = false → obj.has_to_eng_string = false → obj.is_bytes = true →
      json_serial obj = match obj.utf8_decode with
        | some u => .val u
        | none => .raised) ∧
    (obj.has_isoformat = false → obj.has_to_eng_string = false → obj.is_bytes = false →
      json_serial obj = match obj.str_conv with
        | some s => .val s
        | none => .null) := by
  refine ⟨fun h1 => ?_, fun h1 h2 => ?_, fun h1 h2 h3 => ?_, fun h1 h2 h3 => ?_⟩ <;>
    simp [json_serial, h1, *]

/-- C6 witness: a timestamp-like value whose generic str conversion would
fail still renders as its isoformat string, and a decimal-like value
renders through str. -/
theorem c6_json_serial_priority_witness :
    json_serial ⟨true, "2024-05-01T00:00:00", false, false, none, none⟩ =
      .val "2024-05-01T00:00:00" ∧
    json_serial ⟨false, "", true, false, none, some "10.5"⟩ = .val "10.5" ∧
    json_serial ⟨false, "", false, true, some "abc", none⟩ = .val "abc" ∧
    json_serial ⟨false, "", false, false, none, some "obj"⟩ = .val "obj" := by
  refine ⟨(c6_json_serial_priority _).1 rfl,
          ?_, ?_, ?_⟩
  · rw [(c6_json_serial_priority _).2.1 rfl rfl]
  · rw [(c6_json_serial_priority _).2.2.1 rfl rfl rfl]
  · rw [(c6_json_serial_priority _).2.2.2 rfl rfl rfl]

/-- C4: a query whose stripped, uppercased text starts with SELECT, run
through the execute_sql tool against a backend returning zero rows,
yields the single literal payload No results found. -/
theorem c4_select_empty_no_results (db : Backend) (arguments : Args) (query : String)
    (h1 : lookupArg arguments "query" = some query) (h2 : query ≠ "")
    (h3 : py_startswith (py_upper (py_strip query)) "SELECT" = true)
    (h4 : db.execute_query query = .ok []) :
    Mssql.call_tool db "execute_sql" arguments = .ok [⟨"text", "No results found"⟩] := by
  simp [Mssql.call_tool, h1, h2, h3, h4]

/-- C4 witness: a concrete SELECT query on a backend with no rows. -/
theorem c4_select_empty_no_results_witness :
    Mssql.call_tool dbEmpty "execute_sql" [("query", "SELECT * FROM t")] =
      .ok [⟨"text", "No results found"⟩] := by
  exact c4_select_empty_no_results dbEmpty [("query", "SELECT * FROM t")]
    "SELECT * FROM t" (by decide) (by decide) (by decide) rfl

/-- C5: whenever a required parameter of the matched tool descriptor is
absent from the arguments mapping, call_tool fails with a hard raised
error (a ValueError naming the requirement on the SQL server, a KeyError
from the subscription on the Slack server), the failure propagates to the
caller rather than becoming an in-band payload, and the backend is never
consulted: the result is the same for every backend or client state. -/
theorem c5_missing_required_argument :
    (∀ (db : Backend) (arguments : Args) (name k : String),
        MssqlRequired name k → lookupArg arguments k = none →
        (∃ msg, msg ∈ ["Query is required", "Table is required", "Schema is required"] ∧
          Mssql.call_tool db name arguments = .error (.valueError msg)) ∧
        (∀ db' : Backend,
          Mssql.call_tool db' name arguments = Mssql.call_tool db name arguments)) ∧
    (∀ (sc : SlackClient) (arguments : SArgs) (name k : String),
        SlackRequired name k → lookupS arguments k = none →
        (∃ kk, SlackRequired name kk ∧ lookupS arguments kk = none ∧
          Slack.call_tool sc name arguments = .error (.keyError kk)) ∧
        (∀ sc' : SlackClient,
          Slack.call_tool sc' name arguments = Slack.call_tool sc name arguments)) := by
  constructor
  · intro db arguments name k hreq habs
    cases hreq with
    | execute_sql =>
      refine ⟨⟨"Query is required", by simp, ?_⟩, fun db' => ?_⟩ <;>
        simp [Mssql.call_tool, habs]
    | schema_table =>
      refine ⟨⟨"Table is required", by simp, ?_⟩, fun db' => ?_⟩ <;>
        simp [Mssql.call_tool, habs]
    | schema_schema =>
      cases htab : lookupArg arguments "table" with
      | none =>
        refine ⟨⟨"Table is required", by simp, ?_⟩, fun db' => ?_⟩ <;>
          simp [Mssql.call_tool, htab]
      | some t =>
        by_cases ht : t = ""
        · refine ⟨⟨"Table is required", by simp, ?_⟩, fun db' => ?_⟩ <;>
            simp [Mssql.call_tool, htab, ht]
        · refine ⟨⟨"Schema is required", by simp, ?_⟩, fun db' => ?_⟩ <;>
            simp [Mssql.call_tool, htab, ht, habs]
  · intro sc arguments name k hreq habs
    cases hreq with
    | auth_code =>
      refine ⟨⟨"code", .auth_code, habs, ?_⟩, fun sc' => ?_⟩ <;>
        simp [Slack.call_tool, getItem, habs]
    | channels_limit =>
      refine ⟨⟨"limit", .channels_limit, habs, ?_⟩, fun sc' => ?_⟩ <;>
        simp [Slack.call_tool, getIntItem, habs]
    | message_channel =>
      refine ⟨⟨"channel_id", .message_channel, habs, ?_⟩, fun sc' => ?_⟩ <;>
        simp [Slack.call_tool, getItem, habs]
    | message_text =>
      cases hch : lookupS arguments "channel_id" with
      | none =>
        refine ⟨⟨"channel_id", .message_channel, hch, ?_⟩, fun sc' => ?_⟩ <;>
          simp [Slack.call_tool, getItem, hch]
      | some v =>
        refine ⟨⟨"text", .message_text, habs, ?_⟩, fun sc' => ?_⟩ <;>
          simp [Slack.call_tool, getItem, hch, habs, SlackClient.post_message]
    | reply_channel =>
      refine ⟨⟨"channel_id", .reply_channel, habs, ?_⟩, fun sc' => ?_⟩ <;>
        simp [Slack.call_tool, getItem, habs]
    | reply_ts =>
      cases hch : lookupS arguments "channel_id" with
      | none =>
        refine ⟨⟨"channel_id", .reply_channel, hch, ?_⟩, fun sc' => ?_⟩ <;>
          simp [Slack.call_tool, getItem, hch]
      | some v =>
        refine ⟨⟨"thread_ts", .reply_ts, habs, ?_⟩, fun sc' => ?_⟩ <;>
          simp [Slack.call_tool, getItem, hch, habs]
    | reply_text =>
      cases hch : lookupS arguments "channel_id" with
      | none =>
        refine ⟨⟨"channel_id", .reply_channel, hch, ?_⟩, fun sc' => ?_⟩ <;>
          simp [Slack.call_tool, getItem, hch]
      | some v =>
        cases hts : lookupS arguments "thread_ts" with
        | none =>
          refine ⟨⟨"thread_ts", .reply_ts, hts, ?_⟩, fun sc' => ?_⟩ <;>
            simp [Slack.call_tool, getItem, hch, hts]
        | some w =>
          refine ⟨⟨"text", .reply_text, habs, ?_⟩, fun sc' => ?_⟩ <;>
            simp [Slack.call_tool, getItem, hch, hts, habs, SlackClient.post_reply]
    | reaction_channel =>
      refine ⟨⟨"channel_id", .reaction_channel, habs, ?_⟩, fun sc' => ?_⟩ <;>
        simp [Slack.call_tool, getItem, habs]
    | reaction_ts =>
      cases hch : lookupS arguments "channel_id" with
      | none =>
        refine ⟨⟨"channel_id", .reaction_channel, hch, ?_⟩, fun sc' => ?_⟩ <;>
          simp [Slack.call_tool, getItem, hch]
      | some v =>
        refine ⟨⟨"timestamp", .reaction_ts, habs, ?_⟩, fun sc' => ?_⟩ <;>
          simp [Slack.call_tool, getItem, hch, habs]
    | reaction_name =>
      cases hch : lookupS arguments "channel_id" with
      | none =>
        refine ⟨⟨"channel_id", .reaction_channel, hch, ?_⟩, fun sc' => ?_⟩ <;>
          simp [Slack.call_tool, getItem, hch]
      | some v =>
        cases hts : lookupS arguments "timestamp" with
        | none =>
          refine ⟨⟨"timestamp", .reaction_ts, hts, ?_⟩, fun sc' => ?_⟩ <;>
            simp [Slack.call_tool, getItem, hch, hts]
        | some w =>
          refine ⟨⟨"reaction", .reaction_name, habs, ?_⟩, fun sc' => ?_⟩ <;>
            simp [Slack.call_tool, getItem, hch, hts, habs, SlackClient.add_reaction]
    | history_channel =>
      refine ⟨⟨"channel_id", .history_channel, habs, ?_⟩, fun sc' => ?_⟩ <;>
        simp [Slack.call_tool, getItem, habs]
    | replies_channel =>
      refine ⟨⟨"channel_id", .replies_channel, habs, ?_⟩, fun sc' => ?_⟩ <;>
        simp [Slack.call_tool, getItem, habs]
    | replies_ts =>
      cases hch : lookupS arguments "channel_id" with
      | none =>
        refine ⟨⟨"channel_id", .replies_channel, hch, ?_⟩, fun sc' => ?_⟩ <;>
          simp [Slack.call_tool, getItem, hch]
      | some v =>
        refine ⟨⟨"thread_ts", .replies_ts, habs, ?_⟩, fun sc' => ?_⟩ <;>
          simp [Slack.call_tool, getItem, hch, habs, SlackClient.get_thread_replies]
    | users_limit =>
      refine ⟨⟨"limit", .users_limit, habs, ?_⟩, fun sc' => ?_⟩ <;>
        simp [Slack.call_tool, getIntItem, habs]

/-- C5 witness: execute_sql with no arguments fails with the query
requirement, and get_channels with no arguments fails with a KeyError. -/
theorem c5_missing_required_argument_witness :
    (∃ msg, msg ∈ ["Query is required", "Table is required", "Schema is required"] ∧
      Mssql.call_tool dbEmpty "execute_sql" [] = .error (.valueError msg)) ∧
    (∃ kk, SlackRequired "get_channels" kk ∧ lookupS ([] : SArgs) kk = none ∧
      Slack.call_tool freshSlack "get_channels" [] = .error (.keyError kk)) :=
  ⟨(c5_missing_required_argument.1 dbEmpty [] "execute_sql" "query"
      MssqlRequired.execute_sql rfl).1,
   (c5_missing_required_argument.2 freshSlack [] "get_channels" "limit"
      SlackRequired.channels_limit rfl).1⟩

/-- C1 counterexample: a backend failure inside the get_tables tool
propagates as a hard error instead of the claimed in-band
Error-executing-query payload, so not every backend failure is caught. -/
theorem c1_counterexample_get_tables_propagates :
    Mssql.call_tool dbBoom "get_tables" [] = .error (.backendError "boom") ∧
    Mssql.call_tool dbBoom "get_tables" [] ≠
      .ok [⟨"text", "Error executing query: boom"⟩] := by
  constructor <;> simp [Mssql.call_tool, dbBoom]

/-- C1 amended: only execute_sql wraps its backend calls: a backend
exception there is caught and returned as a successful response with the
text Error executing query followed by the message, while backend
failures inside get_tables (and get_table_schema) propagate as hard
errors, and every Slack tool failure, including the unauthenticated
get_channels exception, also propagates. -/
theorem c1_amended_execute_sql_errors_in_band (db : Backend) (arguments : Args)
    (query e : String)
    (h1 : lookupArg arguments "query" = some query) (h2 : query ≠ "")
    (h3 : db.execute_query query = .error e)
    (h4 : db.execute_insert_instant query = .error e)
    (h5 : db.execute_query get_all_table_query = .error e)
    (sc : SlackClient) (sargs : SArgs) (n : Int)
    (h6 : sc.bot_headers = none) (h7 : lookupS sargs "limit" = some (.vi n)) :
    Mssql.call_tool db "execute_sql" arguments =
      .ok [⟨"text", "Error executing query: " ++ e⟩] ∧
    Mssql.call_tool db "get_tables" arguments = .error (.backendError e) ∧
    Slack.call_tool sc "get_channels" sargs =
      .error (.exn "Not authenticated. Please authenticate first.") := by
  refine ⟨?_, ?_, ?_⟩
  · by_cases hsel : py_startswith (py_upper (py_strip query)) "SELECT" = true
    · simp [Mssql.call_tool, h1, h2, h3, hsel]
    · simp only [Bool.not_eq_true] at hsel
      simp [Mssql.call_tool, h1, h2, h4, hsel]
  · simp [Mssql.call_tool, h5]
  · simp [Slack.call_tool, getIntItem, h7, SlackClient.get_channels, h6]

/-- C1 amended witness: an INSERT against a raising backend comes back
as the in-band error payload, while get_tables and the Slack call fail
hard at the same inputs. -/
theorem c1_amended_execute_sql_errors_in_band_witness :
    Mssql.call_tool dbBoom "execute_sql" [("query", "INSERT INTO t VALUES (1)")] =
      .ok [⟨"text", "Error executing query: boom"⟩] ∧
    Mssql.call_tool dbBoom "get_tables" [("query", "INSERT INTO t VALUES (1)")] =
      .error (.backendError "boom") ∧
    Slack.call_tool freshSlack "get_channels" [("limit", .vi 5)] =
      .error (.exn "Not authenticated. Please authenticate first.") :=
  c1_amended_execute_sql_errors_in_band dbBoom [("query", "INSERT INTO t VALUES (1)")]
    "INSERT INTO t VALUES (1)" "boom" rfl (by decide) rfl rfl rfl
    freshSlack [("limit", .vi 5)] 5 rfl rfl

/-- C7 counterexample: a freshly constructed, never-authenticated client
still performs the outbound post_message call (with no Authorization
headers) instead of failing with the not-authenticated error. -/
theorem c7_counterexample_post_message_before_auth :
    SlackClient.post_message (SlackClient.init "cid" "secret" "T0") "C1" "hello" =
      .ok ⟨.post, "https://slack.com/api/chat.postMessage", none,
        [("channel", .vs "C1"), ("text", .vs "hello")]⟩ ∧
    SlackClient.post_message (SlackClient.init "cid" "secret" "T0") "C1" "hello" ≠
      .error "Not authenticated. Please authenticate first." := by
  constructor
  · rfl
  · simp [SlackClient.post_message]

/-- C7 amended: of the SlackClient operations other than get_auth_url,
only get_channels checks for a prior authentication; on a freshly
constructed client it alone fails with the not-authenticated error, while
post_message, post_reply, add_reaction, get_channel_history,
get_thread_replies, get_users and get_user_profile all issue their
outbound call with no Authorization headers attached. -/
theorem c7_amended_only_get_channels_checks_auth
    (a b t channel_id thread_ts msgtext timestamp reaction user_id : String)
    (limit hist_limit : Int) (cursor : Option String) :
    (SlackClient.init a b t).get_channels limit cursor =
      .error "Not authenticated. Please authenticate first." ∧
    (SlackClient.init a b t).post_message channel_id msgtext =
      .ok ⟨.post, "https://slack.com/api/chat.postMessage", none,
        [("channel", .vs channel_id), ("text", .vs msgtext)]⟩ ∧
    (SlackClient.init a b t).post_reply channel_id thread_ts msgtext =
      .ok ⟨.post, "https://slack.com/api/chat.postMessage", none,
        [("channel", .vs channel_id), ("thread_ts", .vs thread_ts),
         ("text", .vs msgtext)]⟩ ∧
    (SlackClient.init a b t).add_reaction channel_id timestamp reaction =
      .ok ⟨.post, "https://slack.com/api/reactions.add", none,
        [("channel", .vs channel_id), ("timestamp", .vs timestamp),
         ("name", .vs reaction)]⟩ ∧
    (SlackClient.init a b t).get_channel_history channel_id hist_limit =
      .ok ⟨.get, "https://slack.com/api/conversations.history", none,
        [("channel", .vs channel_id), ("limit", .vi hist_limit)]⟩ ∧
    (SlackClient.init a b t).get_thread_replies channel_id thread_ts =
      .ok ⟨.get, "https://slack.com/api/conversations.replies", none,
        [("channel", .vs channel_id), ("ts", .vs thread_ts)]⟩ ∧
    (SlackClient.init a b t).get_users limit cursor =
      .ok ⟨.get, "https://slack.com/api/users.list", none,
        [("limit", .vi (min limit 200)), ("team_id", .vs t)] ++
          SlackClient.cursorParam cursor⟩ ∧
    (SlackClient.init a b t).get_user_profile user_id =
      .ok ⟨.get, "https://slack.com/api/users.profile.get", none,
        [("user", .vs user_id), ("include_labels", .vs "true")]⟩ :=
  ⟨rfl, rfl, rfl, rfl, rfl, rfl, rfl, rfl⟩

/-- C8 counterexample: the literal query SHOW TABLES is not rewritten:
it reaches the statement executor of the backend verbatim (the probing backend
reports the statement path and the untouched text), instead of the
metadata query running through the query path as the claim requires. -/
theorem c8_counterexample_show_tables_not_rewritten :
    Mssql.call_tool dbProbe "execute_sql" [("query", "SHOW TABLES")] =
      .ok [⟨"text", "Error executing query: stmt-path:SHOW TABLES"⟩] ∧
    Mssql.call_tool dbProbe "execute_sql" [("query", "SHOW TABLES")] ≠
      .ok [⟨"text", "Error executing query: query-path"⟩] := by
  have hsel : py_startswith (py_upper (py_strip "SHOW TABLES")) "SELECT" = false := by
    decide
  constructor <;> simp [Mssql.call_tool, dbProbe, hsel, lookupArg]

/-- C8 amended: call_tool has no special case for SHOW TABLES: the
literal text is treated as a non-SELECT statement and passed unchanged to
execute_insert_instant, whose outcome alone determines the response; the
fixed metadata query of get_all_table_query is used only by the
get_tables tool and startup resource enumeration. -/
theorem c8_amended_show_tables_passed_literally (db : Backend) (arguments : Args)
    (h1 : lookupArg arguments "query" = some "SHOW TABLES") :
    Mssql.call_tool db "execute_sql" arguments =
      match db.execute_insert_instant "SHOW TABLES" with
      | .ok _ => .ok [⟨"text", "Query executed successfully"⟩]
      | .error e => .ok [⟨"text", "Error executing query: " ++ e⟩] := by
  have hsel : py_startswith (py_upper (py_strip "SHOW TABLES")) "SELECT" = false := by
    decide
  simp only [Mssql.call_tool, h1]
  cases hx : db.execute_insert_instant "SHOW TABLES" <;> simp [hsel, hx]

/-- C8 amended witness: on a backend that accepts statements, SHOW TABLES
reports plain statement success. -/
theorem c8_amended_show_tables_passed_literally_witness :
    Mssql.call_tool dbEmpty "execute_sql" [("query", "SHOW TABLES")] =
      .ok [⟨"text", "Query executed successfully"⟩] := by
  rw [c8_amended_show_tables_passed_literally dbEmpty [("query", "SHOW TABLES")] rfl]
  rfl

/-- C10: for every integer limit, get_channels (once authenticated) and
get_users send min of the limit and 200 as the outbound limit parameter,
so a larger requested page size is silently capped at 200. -/
theorem c10_limit_capped_at_200 (c : SlackClient) (h : Headers)
    (hauth : c.bot_headers = some h) (limit : Int) (cursor : Option String) :
    (∃ r, c.get_channels limit cursor = .ok r ∧
      lookupS r.params "limit" = some (.vi (min limit 200)) ∧
      (200 ≤ limit → lookupS r.params "limit" = some (.vi 200))) ∧
    (∃ r, c.get_users limit cursor = .ok r ∧
      lookupS r.params "limit" = some (.vi (min limit 200)) ∧
      (200 ≤ limit → lookupS r.params "limit" = some (.vi 200))) := by
  constructor
  · refine ⟨⟨.get, "https://slack.com/api/conversations.list", c.bot_headers,
      [("types", .vs "public_channel"), ("exclude_archived", .vs "true"),
       ("limit", .vi (min limit 200)), ("team_id", .vs c.team_id)] ++
        SlackClient.cursorParam cursor⟩, ?_, ?_, fun hle => ?_⟩
    · simp [SlackClient.get_channels, hauth]
    · simp [lookupS]
    · simp [lookupS, min_eq_right hle]
  · refine ⟨⟨.get, "https://slack.com/api/users.list", c.bot_headers,
      [("limit", .vi (min limit 200)), ("team_id", .vs c.team_id)] ++
        SlackClient.cursorParam cursor⟩, ?_, ?_, fun hle => ?_⟩
    · simp [SlackClient.get_users]
    · simp [lookupS]
    · simp [lookupS, min_eq_right hle]

/-- C10 witness: an authenticated client asked for 500 channels or users
sends limit 200. -/
theorem c10_limit_capped_at_200_witness :
    (∃ r, (freshSlack.set_user_token "tok").get_channels 500 none = .ok r ∧
      lookupS r.params "limit" = some (.vi (min 500 200)) ∧
      (200 ≤ (500 : Int) → lookupS r.params "limit" = some (.vi 200))) ∧
    (∃ r, (freshSlack.set_user_token "tok").get_users 500 none = .ok r ∧
      lookupS r.params "limit" = some (.vi (min 500 200)) ∧
      (200 ≤ (500 : Int) → lookupS r.params "limit" = some (.vi 200))) :=
  c10_limit_capped_at_200 (freshSlack.set_user_token "tok")
    ⟨"Bearer tok", "application/json"⟩ rfl 500 none

/-! ### Character and digit basics for the codec round trip -/

theorem char_toNat_valid (c : Char) :
    c.toNat < 55296 ∨ (57343 < c.toNat ∧ c.toNat < 1114112) := by
  have h := c.valid
  simp only [UInt32.isValidChar, Nat.isValidChar] at h
  exact h

theorem digitCh_toNat (n : Nat) (h : n < 10) : (digitCh n).toNat = 48 + n := by
  unfold digitCh
  interval_cases n <;> decide

theorem isDigitCh_digitCh (n : Nat) (h : n < 10) : isDigitCh (digitCh n) = true := by
  unfold digitCh isDigitCh
  interval_cases n <;> decide

theorem hexVal_hexCh (n : Nat) (h : n < 16) : hexVal (hexCh n) = some n := by
  unfold hexCh hexVal
  interval_cases n <;> decide

theorem wsJson_not_ws (c : Char) (l : List Char) (h : isWsCh c = false) :
    wsJson (c :: l) = c :: l := by
  simp [wsJson, h]

theorem wsJson_ws (c : Char) (l : List Char) (h : isWsCh c = true) :
    wsJson (c :: l) = wsJson l := by
  simp [wsJson, h]

theorem isDigitCh_not_ws (c : Char) (h : isDigitCh c = true) : isWsCh c = false := by
  unfold isDigitCh at h
  unfold isWsCh
  simp only [Bool.and_eq_true, decide_eq_true_eq] at h
  simp only [Bool.or_eq_false_iff, decide_eq_false_iff_not]
  refine ⟨⟨⟨?_, ?_⟩, ?_⟩, ?_⟩ <;> intro hc <;> rw [hc] at h <;> simp at h

theorem parseHex4_hex4 (n : Nat) (h : n < 65536) (rest : List Char) :
    parseHex4 (hex4 n ++ rest) = some (n, rest) := by
  unfold hex4
  simp only [List.cons_append, List.nil_append, parseHex4]
  rw [hexVal_hexCh (n / 4096 % 16) (by omega), hexVal_hexCh (n / 256 % 16) (by omega),
      hexVal_hexCh (n / 16 % 16) (by omega), hexVal_hexCh (n % 16) (by omega)]
  have : n / 4096 % 16 * 4096 + n / 256 % 16 * 256 + n / 16 % 16 * 16 + n % 16 = n := by
    omega
  simp [this]

theorem parseStrBody_quote (f : Nat) (rest : List Char) :
    parseStrBody (f + 1) ('"' :: rest) = some ([], rest) := by
  simp [parseStrBody]

theorem parseStrBody_lit (f : Nat) (c : Char) (rest : List Char)
    (h1 : ¬c = '"') (h2 : ¬c = '\\') :
    parseStrBody (f + 1) (c :: rest) =
      match parseStrBody f rest with
      | some (str, r) => some (c :: str, r)
      | none => none := by
  simp [parseStrBody, h1, h2]

theorem parseStrBody_esc (f : Nat) (e u : Char) (rest : List Char)
    (h1 : unescSimple e = some u) (h2 : ¬e = 'u') :
    parseStrBody (f + 1) ('\\' :: e :: rest) =
      match parseStrBody f rest with
      | some (str, r) => some (u :: str, r)
      | none => none := by
  simp [parseStrBody, h1, h2]

theorem parseStrBody_uesc (f : Nat) (n : Nat) (rest2 rest3 : List Char)
    (h1 : parseHex4 rest2 = some (n, rest3))
    (h2 : ¬(55296 ≤ n ∧ n ≤ 56319)) (h3 : ¬(56320 ≤ n ∧ n ≤ 57343)) :
    parseStrBody (f + 1) ('\\' :: 'u' :: rest2) =
      match parseStrBody f rest3 with
      | some (str, r) => some (Char.ofNat n :: str, r)
      | none => none := by
  simp [parseStrBody, h1, h2, h3]

theorem parseStrBody_pair (f : Nat) (n m : Nat) (rest2 rest4 rest5 : List Char)
    (h1 : parseHex4 rest2 = some (n, '\\' :: 'u' :: rest4))
    (h2 : 55296 ≤ n) (h3 : n ≤ 56319)
    (h4 : parseHex4 rest4 = some (m, rest5))
    (h5 : 56320 ≤ m) (h6 : m ≤ 57343) :
    parseStrBody (f + 1) ('\\' :: 'u' :: rest2) =
      match parseStrBody f rest5 with
      | some (str, r) => some (Char.ofNat (65536 + (n - 55296) * 1024 + (m - 56320)) :: str, r)
      | none => none := by
  simp [parseStrBody, h1, h2, h3, h4, h5, h6]

theorem parseStrBody_rt (s : List Char) : ∀ (fuel : Nat) (rest : List Char),
    (escStr s).length + 1 ≤ fuel →
    parseStrBody fuel (escStr s ++ '"' :: rest) = some (s, rest) := by
  induction s with
  | nil =>
    intro fuel rest hfuel
    obtain ⟨f, rfl⟩ : ∃ f, fuel = f + 1 := ⟨fuel - 1, by omega⟩
    simpa [escStr] using parseStrBody_quote f rest
  | cons c s ih =>
    intro fuel rest hfuel
    rw [show escStr (c :: s) = escapeChar c ++ escStr s from rfl] at hfuel ⊢
    obtain ⟨f, rfl⟩ : ∃ f, fuel = f + 1 := ⟨fuel - 1, by omega⟩
    have hval := char_toNat_valid c
    by_cases h1 : c = '\\'
    · subst h1
      rw [show escapeChar '\\' = ['\\', '\\'] from by decide] at hfuel ⊢
      have hlen : (escStr s).length + 1 ≤ f := by simp at hfuel; omega
      simp only [List.cons_append, List.nil_append, List.append_assoc]
      rw [parseStrBody_esc f '\\' '\\' _ (by decide) (by decide), ih f rest hlen]
    · by_cases h2 : c = '"'
      · subst h2
        rw [show escapeChar '"' = ['\\', '"'] from by decide] at hfuel ⊢
        have hlen : (escStr s).length + 1 ≤ f := by simp at hfuel; omega
        simp only [List.cons_append, List.nil_append, List.append_assoc]
        rw [parseStrBody_esc f '"' '"' _ (by decide) (by decide), ih f rest hlen]
      · by_cases h3 : c.toNat = 8
        · have hesc : escapeChar c = ['\\', 'b'] := by simp [escapeChar, h1, h2, h3]
          rw [hesc] at hfuel ⊢
          have hlen : (escStr s).length + 1 ≤ f := by simp at hfuel; omega
          have hc : Char.ofNat 8 = c := by rw [← h3, Char.ofNat_toNat]
          simp only [List.cons_append, List.nil_append, List.append_assoc]
          rw [parseStrBody_esc f 'b' (Char.ofNat 8) _ (by decide) (by decide),
            ih f rest hlen, hc]
        · by_cases h4 : c.toNat = 9
          · have hesc : escapeChar c = ['\\', 't'] := by simp [escapeChar, h1, h2, h3, h4]
            rw [hesc] at hfuel ⊢
            have hlen : (escStr s).length + 1 ≤ f := by simp at hfuel; omega
            have hc : Char.ofNat 9 = c := by rw [← h4, Char.ofNat_toNat]
            simp only [List.cons_append, List.nil_append, List.append_assoc]
            rw [parseStrBody_esc f 't' (Char.ofNat 9) _ (by decide) (by decide),
              ih f rest hlen, hc]
          · by_cases h5 : c.toNat = 10
            · have hesc : escapeChar c = ['\\', 'n'] := by
                simp [escapeChar, h1, h2, h3, h4, h5]
              rw [hesc] at hfuel ⊢
              have hlen : (escStr s).length + 1 ≤ f := by simp at hfuel; omega
              have hc : Char.ofNat 10 = c := by rw [← h5, Char.ofNat_toNat]
              simp only [List.cons_append, List.nil_append, List.append_assoc]
              rw [parseStrBody_esc f 'n' (Char.ofNat 10) _ (by decide) (by decide),
                ih f rest hlen, hc]
            · by_cases h6 : c.toNat = 12
              · have hesc : escapeChar c = ['\\', 'f'] := by
                  simp [escapeChar, h1, h2, h3, h4, h5, h6]
                rw [hesc] at hfuel ⊢
                have hlen : (escStr s).length + 1 ≤ f := by simp at hfuel; omega
                have hc : Char.ofNat 12 = c := by rw [← h6, Char.ofNat_toNat]
                simp only [List.cons_append, List.nil_append, List.append_assoc]
                rw [parseStrBody_esc f 'f' (Char.ofNat 12) _ (by decide) (by decide),
                  ih f rest hlen, hc]
              · by_cases h7 : c.toNat = 13
                · have hesc : escapeChar c = ['\\', 'r'] := by
                    simp [escapeChar, h1, h2, h3, h4, h5, h6, h7]
                  rw [hesc] at hfuel ⊢
                  have hlen : (escStr s).length + 1 ≤ f := by simp at hfuel; omega
                  have hc : Char.ofNat 13 = c := by rw [← h7, Char.ofNat_toNat]
                  simp only [List.cons_append, List.nil_append, List.append_assoc]
                  rw [parseStrBody_esc f 'r' (Char.ofNat 13) _ (by decide) (by decide),
                    ih f rest hlen, hc]
                · by_cases h8 : 32 ≤ c.toNat ∧ c.toNat ≤ 126
                  · have hesc : escapeChar c = [c] := by
                      simp [escapeChar, h1, h2, h3, h4, h5, h6, h7, h8]
                    rw [hesc] at hfuel ⊢
                    have hlen : (escStr s).length + 1 ≤ f := by simp at hfuel; omega
                    simp only [List.cons_append, List.nil_append, List.append_assoc]
                    rw [parseStrBody_lit f c _ h2 h1, ih f rest hlen]
                  · by_cases h9 : c.toNat < 65536
                    · have hesc : escapeChar c = '\\' :: 'u' :: hex4 c.toNat := by
                        simp [escapeChar, h1, h2, h3, h4, h5, h6, h7, h8, h9]
                      rw [hesc] at hfuel ⊢
                      have hlen : (escStr s).length + 1 ≤ f := by
                        simp [hex4] at hfuel; omega
                      have hns1 : ¬(55296 ≤ c.toNat ∧ c.toNat ≤ 56319) := by omega
                      have hns2 : ¬(56320 ≤ c.toNat ∧ c.toNat ≤ 57343) := by omega
                      simp only [List.cons_append, List.nil_append, List.append_assoc]
                      rw [parseStrBody_uesc f c.toNat _ _
                          (parseHex4_hex4 c.toNat h9 _) hns1 hns2,
                        ih f rest hlen, Char.ofNat_toNat]
                    · have hge : 65536 ≤ c.toNat := by omega
                      have hlt : c.toNat < 1114112 := by omega
                      have hesc : escapeChar c =
                          ('\\' :: 'u' :: hex4 (55296 + (c.toNat - 65536) / 1024)) ++
                          ('\\' :: 'u' :: hex4 (56320 + (c.toNat - 65536) % 1024)) := by
                        simp [escapeChar, h1, h2, h3, h4, h5, h6, h7, h8, h9]
                      rw [hesc] at hfuel ⊢
                      have hlen : (escStr s).length + 1 ≤ f := by
                        simp [hex4] at hfuel; omega
                      set hi := 55296 + (c.toNat - 65536) / 1024 with hhidef
                      set lo := 56320 + (c.toNat - 65536) % 1024 with hlodef
                      have hmod := Nat.mod_lt (c.toNat - 65536) (show 0 < 1024 by omega)
                      have hhiB : hi < 65536 := by omega
                      have hloB : lo < 65536 := by omega
                      have hhi : 55296 ≤ hi ∧ hi ≤ 56319 := by omega
                      have hlo : 56320 ≤ lo ∧ lo ≤ 57343 := by omega
                      have hc : Char.ofNat (65536 + (hi - 55296) * 1024 + (lo - 56320)) = c := by
                        rw [show 65536 + (hi - 55296) * 1024 + (lo - 56320) = c.toNat from by
                          omega, Char.ofNat_toNat]
                      simp only [List.cons_append, List.nil_append, List.append_assoc]
                      rw [parseStrBody_pair f hi lo _ _ _
                          (parseHex4_hex4 hi hhiB _) hhi.1 hhi.2
                          (parseHex4_hex4 lo hloB _) hlo.1 hlo.2,
                        ih f rest hlen, hc]

theorem natChars_lt10 (n : Nat) (h : n < 10) : natChars n = [digitCh n] := by
  conv_lhs => unfold natChars
  simp [h]

theorem natChars_ge10 (n : Nat) (h : ¬n < 10) :
    natChars n = natChars (n / 10) ++ [digitCh (n % 10)] := by
  conv_lhs => unfold natChars
  simp [h]

theorem natChars_head (n : Nat) :
    ∃ d t, natChars n = d :: t ∧ isDigitCh d = true := by
  induction n using Nat.strong_induction_on with
  | _ n ih =>
    by_cases h : n < 10
    · exact ⟨digitCh n, [], natChars_lt10 n h, isDigitCh_digitCh n h⟩
    · obtain ⟨d, t, hd, hdig⟩ := ih (n / 10) (Nat.div_lt_self (by omega) (by omega))
      exact ⟨d, t ++ [digitCh (n % 10)], by rw [natChars_ge10 n h, hd]; simp, hdig⟩

theorem parseNatDigits_append (n : Nat) : ∀ (acc : Nat) (rest : List Char),
    parseNatDigits acc (natChars n ++ rest) =
      parseNatDigits (acc * 10 ^ (natChars n).length + n) rest := by
  induction n using Nat.strong_induction_on with
  | _ n ih =>
    intro acc rest
    by_cases h : n < 10
    · rw [natChars_lt10 n h]
      simp only [List.cons_append, List.nil_append, List.length_cons, List.length_nil,
        parseNatDigits, isDigitCh_digitCh n h, if_true]
      rw [digitCh_toNat n h]
      norm_num
    · rw [natChars_ge10 n h]
      rw [List.append_assoc, List.cons_append, List.nil_append,
        ih (n / 10) (Nat.div_lt_self (by omega) (by omega))]
      have hd : n % 10 < 10 := Nat.mod_lt n (by omega)
      simp only [parseNatDigits, isDigitCh_digitCh (n % 10) hd, if_true]
      rw [digitCh_toNat (n % 10) hd]
      have hlen : (natChars (n / 10) ++ [digitCh (n % 10)]).length =
          (natChars (n / 10)).length + 1 := by simp
      rw [hlen, pow_succ]
      have key : (acc * 10 ^ (natChars (n / 10)).length + n / 10) * 10 + (48 + n % 10 - 48) =
          acc * (10 ^ (natChars (n / 10)).length * 10) + (n / 10 * 10 + n % 10) := by
        have : 48 + n % 10 - 48 = n % 10 := by omega
        rw [this]; ring
      rw [key, show n / 10 * 10 + n % 10 = n from by omega]

theorem parseNatDigits_stop (acc : Nat) (rest : List Char)
    (h : headNotDigit rest = true) : parseNatDigits acc rest = (acc, rest) := by
  cases rest with
  | nil => simp [parseNatDigits]
  | cons c t =>
    simp only [headNotDigit, Bool.not_eq_true'] at h
    simp [parseNatDigits, h]

theorem parseNatDigits_natChars (n : Nat) (rest : List Char)
    (h : headNotDigit rest = true) :
    parseNatDigits 0 (natChars n ++ rest) = (n, rest) := by
  rw [parseNatDigits_append, Nat.zero_mul, Nat.zero_add, parseNatDigits_stop n rest h]

theorem digit_not_minus (d : Char) (h : isDigitCh d = true) : ¬d = '-' := by
  intro hc
  rw [hc] at h
  simp [isDigitCh] at h

theorem parseInt_natChars (n : Nat) (rest : List Char) (h : headNotDigit rest = true) :
    parseInt (natChars n ++ rest) = some ((n : Int), rest) := by
  obtain ⟨d, t, hd, hdig⟩ := natChars_head n
  rw [hd, List.cons_append]
  simp only [parseInt, digit_not_minus d hdig, if_false, hdig, if_true, reduceIte]
  rw [← List.cons_append, ← hd, parseNatDigits_natChars n rest h]

theorem parseInt_neg_natChars (m : Nat) (rest : List Char) (h : headNotDigit rest = true) :
    parseInt ('-' :: (natChars m ++ rest)) = some (-(m : Int), rest) := by
  obtain ⟨d, t, hd, hdig⟩ := natChars_head m
  rw [hd, List.cons_append]
  simp only [parseInt, reduceIte, hdig, if_true]
  rw [← List.cons_append, ← hd, parseNatDigits_natChars m rest h]

theorem parseInt_intChars (n : Int) (rest : List Char) (h : headNotDigit rest = true) :
    parseInt (intChars n ++ rest) = some (n, rest) := by
  unfold intChars
  by_cases hn : n < 0
  · rw [if_pos hn, List.cons_append, parseInt_neg_natChars n.natAbs rest h]
    congr 1
    congr 1
    omega
  · rw [if_neg hn, parseInt_natChars n.toNat rest h]
    congr 1
    congr 1
    omega

theorem parseStr_rt (k tail : List Char) :
    parseStr (escStr k ++ '"' :: tail) = some (k, tail) := by
  unfold parseStr
  exact parseStrBody_rt k _ tail (by simp)

theorem intChars_head (n : Int) :
    ∃ d t, intChars n = d :: t ∧ (d = '-' ∨ isDigitCh d = true) := by
  unfold intChars
  by_cases hn : n < 0
  · exact ⟨'-', natChars n.natAbs, by simp [hn], Or.inl rfl⟩
  · obtain ⟨d, t, hd, hdig⟩ := natChars_head n.toNat
    exact ⟨d, t, by simp [hn, hd], Or.inr hdig⟩

theorem intChars_head_conds (d : Char) (h : d = '-' ∨ isDigitCh d = true) :
    ¬d = '"' ∧ ¬d = 'n' ∧ ¬d = 't' ∧ ¬d = 'f' := by
  cases h with
  | inl h => subst h; refine ⟨by decide, by decide, by decide, by decide⟩
  | inr h =>
    refine ⟨?_, ?_, ?_, ?_⟩ <;> intro hc <;> rw [hc] at h <;> simp [isDigitCh] at h

/-- The first character of any serialized primitive, which is never JSON
whitespace. -/
theorem dumpPrim_head (v : JPrim) :
    ∃ d t, dumpPrim v = d :: t ∧ isWsCh d = false := by
  cases v with
  | jnull => exact ⟨'n', _, rfl, by decide⟩
  | jbool b => cases b with
    | true => exact ⟨'t', _, rfl, by decide⟩
    | false => exact ⟨'f', _, rfl, by decide⟩
  | jint n =>
    obtain ⟨d, t, hd, hcl⟩ := intChars_head n
    refine ⟨d, t, hd, ?_⟩
    cases hcl with
    | inl h => subst h; decide
    | inr h => exact isDigitCh_not_ws d h
  | jstr s => exact ⟨'"', _, rfl, by decide⟩

theorem parsePrim_rt (v : JPrim) (rest : List Char) (h : headNotDigit rest = true) :
    parsePrim (dumpPrim v ++ rest) = some (v, rest) := by
  cases v with
  | jnull => simp [dumpPrim, parsePrim]
  | jbool b => cases b <;> simp [dumpPrim, parsePrim]
  | jint n =>
    obtain ⟨d, t, hd, hcl⟩ := intChars_head n
    obtain ⟨hq, hn, ht, hf⟩ := intChars_head_conds d hcl
    rw [show dumpPrim (.jint n) = intChars n from rfl, hd, List.cons_append]
    simp only [parsePrim, hq, hn, ht, hf, if_false, reduceIte]
    rw [← List.cons_append, ← hd, parseInt_intChars n rest h]
  | jstr s =>
    rw [show dumpPrim (.jstr s) = '"' :: (escStr s ++ ['"']) from rfl]
    rw [List.cons_append, List.append_assoc, List.singleton_append]
    simp [parsePrim, parseStr_rt s rest]

theorem wsJson_append_dumpPrim (v : JPrim) (rest : List Char) :
    wsJson (dumpPrim v ++ rest) = dumpPrim v ++ rest := by
  obtain ⟨d, t, hd, hw⟩ := dumpPrim_head v
  rw [hd, List.cons_append, wsJson_not_ws d _ hw]

theorem parsePair_rt (k : List Char) (v : JPrim) (rest : List Char)
    (h : headNotDigit rest = true) :
    parsePair (pairStr (k, v) ++ rest) = some ((k, v), rest) := by
  have hq : pairStr (k, v) ++ rest =
      '"' :: (escStr k ++ '"' :: (':' :: ' ' :: (dumpPrim v ++ rest))) := by
    simp [pairStr, quoteStr]
  rw [hq]
  simp [parsePair, wsJson, parseStr_rt k (':' :: ' ' :: (dumpPrim v ++ rest)),
    wsJson_append_dumpPrim v rest, parsePrim_rt v rest h,
    show isWsCh '"' = false from by decide, show isWsCh ':' = false from by decide,
    show isWsCh ' ' = true from by decide]

theorem joinComma_cons (x : List Char) (xs : List (List Char)) :
    joinComma (x :: xs) = x ++ tailJoin xs := by
  induction xs generalizing x with
  | nil => simp [joinComma, tailJoin]
  | cons y ys ih => simp [joinComma, tailJoin, ih y]

theorem parsePair_ws_cons (l : List Char) : parsePair (' ' :: l) = parsePair l := by
  unfold parsePair
  rw [wsJson_ws ' ' l (by decide)]

theorem parseObj_ws_cons (fuel : Nat) (l : List Char) :
    parseObj fuel (' ' :: l) = parseObj fuel l := by
  unfold parseObj
  rw [wsJson_ws ' ' l (by decide)]

theorem parseMembersTail_rt (kvs : JRow) : ∀ (fuel : Nat) (rest : List Char),
    kvs.length ≤ fuel →
    parseMembersTail fuel (tailJoin (kvs.map pairStr) ++ '}' :: rest) = some (kvs, rest) := by
  induction kvs with
  | nil =>
    intro fuel rest _
    rw [show tailJoin (([] : JRow).map pairStr) ++ '}' :: rest = '}' :: rest from by
      simp [tailJoin]]
    rw [parseMembersTail, wsJson_not_ws '}' _ (by decide)]
    simp
  | cons kv kvs ih =>
    intro fuel rest hfuel
    rw [List.length_cons] at hfuel
    obtain ⟨f, rfl⟩ : ∃ f, fuel = f + 1 := ⟨fuel - 1, by omega⟩
    obtain ⟨k0, v0⟩ := kv
    have hT : headNotDigit (tailJoin (kvs.map pairStr) ++ '}' :: rest) = true := by
      cases kvs with
      | nil =>
        simp [tailJoin, headNotDigit, show isDigitCh '}' = false from by decide]
      | cons a as =>
        simp [tailJoin, headNotDigit, show isDigitCh ',' = false from by decide]
    have hfeq : kvs.length ≤ f := by omega
    have hih := ih f rest hfeq
    have hpair := parsePair_rt k0 v0 (tailJoin (kvs.map pairStr) ++ '}' :: rest) hT
    have hshape : tailJoin (((k0, v0) :: kvs).map pairStr) ++ '}' :: rest =
        ',' :: (' ' :: (pairStr (k0, v0) ++ (tailJoin (kvs.map pairStr) ++ '}' :: rest))) := by
      simp [tailJoin]
    rw [hshape, parseMembersTail, wsJson_not_ws ',' _ (by decide)]
    simp [parsePair_ws_cons, hpair, hih]

theorem pairStr_head (k : List Char) (v : JPrim) :
    pairStr (k, v) = '"' :: ((escStr k ++ ['"']) ++ ':' :: ' ' :: dumpPrim v) := by
  simp [pairStr, quoteStr]

theorem parseObj_rt (r : JRow) (fuel : Nat) (rest : List Char) (hfuel : r.length ≤ fuel) :
    parseObj fuel (dumpRow r ++ rest) = some (r, rest) := by
  cases r with
  | nil =>
    rw [show dumpRow [] ++ rest = '{' :: ('}' :: rest) from by simp [dumpRow, joinComma]]
    rw [parseObj, wsJson_not_ws '{' _ (by decide)]
    simp [wsJson_not_ws '}' _ (by decide)]
  | cons kv kvs =>
    obtain ⟨k0, v0⟩ := kv
    have hT : headNotDigit (tailJoin (kvs.map pairStr) ++ '}' :: rest) = true := by
      cases kvs with
      | nil =>
        simp [tailJoin, headNotDigit, show isDigitCh '}' = false from by decide]
      | cons a as =>
        simp [tailJoin, headNotDigit, show isDigitCh ',' = false from by decide]
    have hlen2 : kvs.length ≤ fuel := by rw [List.length_cons] at hfuel; omega
    have hmem := parseMembersTail_rt kvs fuel rest hlen2
    have hpair := parsePair_rt k0 v0 (tailJoin (kvs.map pairStr) ++ '}' :: rest) hT
    have hshape : dumpRow ((k0, v0) :: kvs) ++ rest =
        '{' :: (pairStr (k0, v0) ++ (tailJoin (kvs.map pairStr) ++ '}' :: rest)) := by
      simp [dumpRow, joinComma_cons]
    rw [pairStr_head k0 v0, List.cons_append] at hpair
    rw [hshape, pairStr_head k0 v0, List.cons_append, parseObj,
      wsJson_not_ws '{' _ (by decide)]
    simp only [List.append_assoc, List.cons_append, List.singleton_append,
      List.nil_append] at hpair ⊢
    simp [wsJson_not_ws '"' _ (by decide), hpair, hmem]

theorem joinComma_length_ge (ls : List (List Char)) (h : ∀ x ∈ ls, 1 ≤ x.length) :
    ls.length ≤ (joinComma ls).length := by
  induction ls with
  | nil => simp [joinComma]
  | cons x xs ih =>
    cases xs with
    | nil =>
      have := h x (by simp)
      simp [joinComma]
      omega
    | cons y ys =>
      have hx := h x (by simp)
      have hr := ih (fun z hz => h z (by simp [hz]))
      simp [joinComma] at hr ⊢
      omega

theorem pairStr_length_pos (kv : List Char × JPrim) : 1 ≤ (pairStr kv).length := by
  obtain ⟨k, v⟩ := kv
  rw [pairStr_head]
  simp

theorem dumpRow_length_ge (r : JRow) : r.length ≤ (dumpRow r).length := by
  have h := joinComma_length_ge (r.map pairStr) (by
    intro x hx
    obtain ⟨kv, _, rfl⟩ := List.mem_map.mp hx
    exact pairStr_length_pos kv)
  simp [dumpRow] at h ⊢
  omega

theorem weight_le_tailJoin (rows : List JRow) :
    weightRows rows ≤ (tailJoin (rows.map dumpRow)).length := by
  induction rows with
  | nil => simp [weightRows, tailJoin]
  | cons r rs ih =>
    have hd := dumpRow_length_ge r
    simp [weightRows, tailJoin] at ih ⊢
    omega

theorem parseRowsTail_rt (rows : List JRow) : ∀ (fuel : Nat) (rest : List Char),
    weightRows rows ≤ fuel →
    parseRowsTail fuel (tailJoin (rows.map dumpRow) ++ ']' :: rest) = some (rows, rest) := by
  induction rows with
  | nil =>
    intro fuel rest _
    rw [show tailJoin (([] : List JRow).map dumpRow) ++ ']' :: rest = ']' :: rest from by
      simp [tailJoin]]
    rw [parseRowsTail, wsJson_not_ws ']' _ (by decide)]
    simp
  | cons r rs ih =>
    intro fuel rest hfuel
    rw [show weightRows (r :: rs) = r.length + 1 + weightRows rs from rfl] at hfuel
    obtain ⟨f, rfl⟩ : ∃ f, fuel = f + 1 := ⟨fuel - 1, by omega⟩
    have hih := ih f rest (by omega)
    have hobj := parseObj_rt r f (tailJoin (rs.map dumpRow) ++ ']' :: rest) (by omega)
    have hshape : tailJoin ((r :: rs).map dumpRow) ++ ']' :: rest =
        ',' :: (' ' :: (dumpRow r ++ (tailJoin (rs.map dumpRow) ++ ']' :: rest))) := by
      simp [tailJoin]
    rw [hshape, parseRowsTail, wsJson_not_ws ',' _ (by decide)]
    simp [parseObj_ws_cons, hobj, hih]

theorem dumpRow_head (r : JRow) :
    dumpRow r = '{' :: (joinComma (r.map pairStr) ++ ['}']) := rfl

theorem parseObjL_rt (r : JRow) (rest : List Char) :
    parseObjL (dumpRow r ++ rest) = some (r, rest) := by
  unfold parseObjL
  refine parseObj_rt r _ rest ?_
  calc r.length ≤ (dumpRow r).length := dumpRow_length_ge r
    _ ≤ (dumpRow r ++ rest).length := by simp

theorem parseRowsTailL_rt (rows : List JRow) (rest : List Char) :
    parseRowsTailL (tailJoin (rows.map dumpRow) ++ ']' :: rest) = some (rows, rest) := by
  unfold parseRowsTailL
  refine parseRowsTail_rt rows _ rest ?_
  calc weightRows rows ≤ (tailJoin (rows.map dumpRow)).length := weight_le_tailJoin rows
    _ ≤ (tailJoin (rows.map dumpRow) ++ ']' :: rest).length := by simp

theorem parseTop_rt (rows : List JRow) : parseTop (dumps rows) = some (rows, []) := by
  cases rows with
  | nil =>
    rw [show dumps [] = '[' :: (']' :: []) from by simp [dumps, joinComma]]
    rw [parseTop, wsJson_not_ws '[' _ (by decide)]
    simp [wsJson_not_ws ']' _ (by decide)]
  | cons r rs =>
    have hobj := parseObjL_rt r (tailJoin (rs.map dumpRow) ++ ']' :: [])
    have hrows := parseRowsTailL_rt rs ([] : List Char)
    have hshape : dumps (r :: rs) =
        '[' :: (dumpRow r ++ (tailJoin (rs.map dumpRow) ++ ']' :: [])) := by
      simp [dumps, joinComma_cons]
    rw [hshape, parseTop, wsJson_not_ws '[' _ (by decide)]
    have hws : wsJson (dumpRow r ++ (tailJoin (rs.map dumpRow) ++ ']' :: [])) =
        dumpRow r ++ (tailJoin (rs.map dumpRow) ++ ']' :: []) := by
      rw [dumpRow_head, List.cons_append, wsJson_not_ws '{' _ (by decide)]
    simp only [hws]
    simp only [dumpRow_head, List.cons_append, List.append_assoc, List.singleton_append,
      List.nil_append] at hobj ⊢
    simp [hobj, hrows]

/-- C9: round-trip identity of the result codec on JSON-native rows: for
every sequence of rows whose field values are JSON-native primitives
(null, booleans, integers, strings), parsing the string produced by
dict_list_to_json recovers exactly the original row sequence. -/
theorem c9_json_roundtrip (rows : List JRow) :
    loads (dict_list_to_json rows).data = some rows := by
  rw [show (dict_list_to_json rows).data = dumps rows from rfl]
  unfold loads
  rw [parseTop_rt rows]
  simp [wsJson]
